import Mathlib

/-
Verification of the benchmark orchestration and result-reconciliation
pipeline of the AADvanced_Project repository.

The development shallowly embeds the Python orchestration code:

- src/Algorithms/Centrality/run_all_algos.py
  (output reconciliation, fallback executor, CSV writer and reader),
- src/run_scripts/run_all_algos.py
  (resource-probe runners, skip policy, benchmark loop, result rows),
- src/run_facebook_analysis.py (the per-algorithm runner),
- src/analysis/src/run_centrality_benchmark.py (the unguarded loop).

Python exceptions are modelled with Except and explicit handlers; the
filesystem is modelled as a function from path strings to contents;
child-process behaviour, which is external to the program, is an input
of the model (an outcome value per spawn).  Python builtins int, float
and str on numbers are modelled as parameters (a parser and a printer)
where the claims depend only on their round-trip behaviour.  Times are
rationals: no claim depends on binary floating-point rounding of the
measured durations.
-/

/-- Python try/except with a handler: the body either produces a value or
raises, and the handler maps the exception to a result. -/
def pyTry {E A : Type} (x : Except E A) (h : E → A) : A :=
  match x with
  | .ok a => a
  | .error e => h e

/-- Python dict assignment d[k] = v on an association list keyed by Int:
an existing key is overwritten in place, a new key is appended. -/
def dinsert {α : Type} (k : Int) (v : α) : List (Int × α) → List (Int × α)
  | [] => [(k, v)]
  | (k2, v2) :: rest =>
    if k2 = k then (k2, v) :: rest else (k2, v2) :: dinsert k v rest

/-- Lookup in the association-list model of a Python dict. -/
def dlookup {α : Type} (k : Int) : List (Int × α) → Option α
  | [] => none
  | (k2, v2) :: rest => if k2 = k then some v2 else dlookup k rest

/-- Whitespace predicate of the Python str.strip default. -/
def pyIsSpace (c : Char) : Bool :=
  c = ' ' || c = '\t' || c = '\n' || c = '\x0d' || c = '\x0b' || c = '\x0c'

/-- Model of the Python str.strip method on a line of characters. -/
def pstrip (l : List Char) : List Char :=
  ((l.dropWhile pyIsSpace).reverse.dropWhile pyIsSpace).reverse

/-- Model of the Python str.split(",") method: split a line at every comma. -/
def splitComma : List Char → List (List Char)
  | [] => [[]]
  | c :: rest =>
    let r := splitComma rest
    if c = ',' then [] :: r
    else
      match r with
      | [] => [[c]]
      | f :: fs => (c :: f) :: fs

/-- Helper for the substring test: does the pattern start here. -/
def startsWithSub : List Char → List Char → Bool
  | _, [] => true
  | [], _ :: _ => false
  | c :: cs, p :: ps => c == p && startsWithSub cs ps

/-- Helper for the substring test: does the pattern occur anywhere. -/
def containsSub : List Char → List Char → Bool
  | [], pat => pat.isEmpty
  | s@(_ :: rest), pat => startsWithSub s pat || containsSub rest pat

/-- Model of the Python expression pat in s on strings. -/
def strContains (s pat : String) : Bool := containsSub s.data pat.data

/-- Insertion step of the model of Python sorted on dict items with an
integer sort key: the new pair goes after every pair of smaller or equal
key. -/
def insSorted {α : Type} (p : Int × α) : List (Int × α) → List (Int × α)
  | [] => [p]
  | q :: rest => if p.1 < q.1 then p :: q :: rest else q :: insSorted p rest

/-- Model of Python sorted(vals.items(), key on the integer node id). -/
def pysortByKey {α : Type} (l : List (Int × α)) : List (Int × α) :=
  l.foldr insSorted []

namespace Centrality

/- Model of src/Algorithms/Centrality/run_all_algos.py. -/

/-- Model of os.path.flatten for the two-component joins used by the script. -/
def pjoin (dir file : String) : String := dir ++ "/" ++ file

/-- The ordered candidate locations searched for a centrality CSV
(run_all_algos.py lines 107-111): the canonical name in the output
directory, then the two alternate naming conventions in the tool (CPP)
directory. -/
def csvCandidates (outputDir cppDir short base : String) : List String :=
  [ pjoin outputDir (short ++ "_" ++ base ++ ".csv"),
    pjoin cppDir (short ++ "_centrality.csv"),
    pjoin cppDir (short ++ "_" ++ base ++ ".csv") ]

/-- Selection of the source CSV artifact (run_all_algos.py lines 107-128):
src_csv is the first existing candidate, and if the executable was freshly
run and the tool-directory default file exists, that file replaces the
choice.  The existence test on disk is the Boolean function ex. -/
def selectSrcCsv (ex : String → Bool) (ran : Bool)
    (outputDir cppDir short base : String) : Option String :=
  let srcCsv := (csvCandidates outputDir cppDir short base).find? ex
  if ran then
    let fallbackCsv := pjoin cppDir (short ++ "_centrality.csv")
    if ex fallbackCsv then some fallbackCsv else srcCsv
  else srcCsv

/-- Restatement of the Output Reconciler search rule in the shape of the
specification text: first existing candidate of the fixed ordered list,
except that a fresh run prefers the tool-directory default name. -/
def spec_select (ex : String → Bool) (ran : Bool)
    (outputDir cppDir short base : String) : Option String :=
  let toolFile := pjoin cppDir (short ++ "_centrality.csv")
  if ran && ex toolFile then some toolFile
  else (csvCandidates outputDir cppDir short base).find? ex

/-- Result of the move-to-canonical-path step: the filesystem afterwards,
whether os.replace was invoked, and whether an exception was caught. -/
structure MoveResult where
  fs : String → Bool
  invoked : Bool
  caught : Bool

/-- Model of os.replace keyed by absolute paths: the environment decides
through renameFails whether the rename raises (permissions, cross-device);
on success the source vanishes and the destination exists.  A is the
os.path.abspath normalisation. -/
def osReplace (A : String → String) (renameFails : String → String → Bool)
    (fs : String → Bool) (src dst : String) : Except String (String → Bool) :=
  if renameFails src dst then Except.error ("OSError")
  else Except.ok (fun p => if p = A dst then true else if p = A src then false else fs p)

/-- Move-to-canonical-path step (run_all_algos.py lines 130-137): nothing
happens without a located source; the rename is skipped when source and
destination have the same absolute path; a rename failure is caught, a
warning is printed and the filesystem keeps its previous state. -/
def moveToCanonical (A : String → String) (renameFails : String → String → Bool)
    (fs : String → Bool) (src : Option String) (dst : String) : MoveResult :=
  match src with
  | none => ⟨fs, false, false⟩
  | some s =>
    if A s = A dst then ⟨fs, false, false⟩
    else
      match osReplace A renameFails fs s dst with
      | .ok fs2 => ⟨fs2, true, false⟩
      | .error _ => ⟨fs, true, true⟩

/-- Existence test used by the script: os.path.exists on a path, keyed by
its absolute path in the filesystem model. -/
def exA (A : String → String) (fs : String → Bool) (p : String) : Bool := fs (A p)

/-- One Output Reconciler pass for one algorithm (run_all_algos.py lines
107-137): select the source CSV among the candidates, then move it to the
canonical path in the output directory. -/
def reconcile (A : String → String) (renameFails : String → String → Bool)
    (ran : Bool) (outputDir cppDir short base : String)
    (fs : String → Bool) : MoveResult :=
  moveToCanonical A renameFails fs
    (selectSrcCsv (exA A fs) ran outputDir cppDir short base)
    (pjoin outputDir (short ++ "_" ++ base ++ ".csv"))

/-- Header line of every centrality CSV written by the fallback executor. -/
def headerLine : List Char := "node,value".toList

/-- Serialised CSV row for one (node, value) pair, with reprI and reprV the
Python str conversions of the node id and of the value. -/
def csvRow {α : Type} (reprI : Int → List Char) (reprV : α → List Char)
    (p : Int × α) : List Char :=
  reprI p.1 ++ ',' :: reprV p.2

/-- Model of the CSV writer of run_python_algorithms (run_all_algos.py lines
203-206): the header line, then one line per item of the dict, sorted by
the integer node id. -/
def write_centrality_lines {α : Type} (reprI : Int → List Char)
    (reprV : α → List Char) (vals : List (Int × α)) : List (List Char) :=
  headerLine :: (pysortByKey vals).map (csvRow reprI reprV)

/-- Per-line step of read_centrality_csv (run_all_algos.py lines 230-238):
strip the line, split on commas, skip it when it has fewer than two fields,
otherwise convert with float and int; a ValueError in either conversion is
caught and the line is skipped, else the dict entry is assigned.  pyInt
and pyFloat model the Python builtins int and float. -/
def read_line_step {α : Type} (pyInt : List Char → Option Int)
    (pyFloat : List Char → Option α)
    (acc : List (Int × α)) (line : List Char) : List (Int × α) :=
  match splitComma (pstrip line) with
  | p0 :: p1 :: _ =>
    match pyFloat p1, pyInt p0 with
    | some v, some n => dinsert n v acc
    | _, _ => acc
  | _ => acc

/-- Body of read_centrality_csv under the outer try: next(f) raises
StopIteration on an empty file (caught by the outer handler while the dict
is still empty); otherwise the first line is discarded as the header and
the remaining lines are folded into the dict. -/
def readBody {α : Type} (pyInt : List Char → Option Int)
    (pyFloat : List Char → Option α)
    (lines : List (List Char)) : Except String (List (Int × α)) :=
  match lines with
  | [] => Except.error ("StopIteration")
  | _ :: rest => Except.ok (rest.foldl (read_line_step pyInt pyFloat) [])

/-- Model of read_centrality_csv (run_all_algos.py lines 222-241): a None
path or a missing file yields the empty dict with a warning; otherwise the
file is read under a try whose handler returns the dict accumulated so far
(empty, since the only uncaught raise is StopIteration on the first line). -/
def read_centrality_csv {α : Type} (pyInt : List Char → Option Int)
    (pyFloat : List Char → Option α)
    (fs : String → Option (List (List Char)))
    (path : Option String) : List (Int × α) :=
  match path with
  | none => []
  | some p =>
    match fs p with
    | none => []
    | some lines => pyTry (readBody pyInt pyFloat lines) (fun _ => [])

/-- Claim-shaped parse of one CSV data line: some entry exactly when the
line has at least two comma-separated fields whose first parses as an
integer and second as a float. -/
def parse_line_spec {α : Type} (pyInt : List Char → Option Int)
    (pyFloat : List Char → Option α) (line : List Char) : Option (Int × α) :=
  match splitComma (pstrip line) with
  | p0 :: p1 :: _ =>
    match pyInt p0, pyFloat p1 with
    | some n, some v => some (n, v)
    | _, _ => none
  | _ => none

/-- Claim-shaped restatement of the CSV reader: empty mapping for a None or
missing path, first line of an existing file skipped, every remaining
well-formed line contributing exactly one entry, malformed lines silently
skipped. -/
def read_csv_spec {α : Type} (pyInt : List Char → Option Int)
    (pyFloat : List Char → Option α)
    (fs : String → Option (List (List Char)))
    (path : Option String) : List (Int × α) :=
  match path with
  | none => []
  | some p =>
    match fs p with
    | none => []
    | some [] => []
    | some (_ :: rest) =>
      (rest.filterMap (parse_line_spec pyInt pyFloat)).foldl
        (fun acc nv => dinsert nv.1 nv.2 acc) []

/-- Fallback executor of run_python_algorithms (run_all_algos.py lines
184-199): the primary reference computation runs under a try whose handler
recomputes degree centrality on the same graph; degreeFn models the
networkx degree-centrality library call and primary the behaviour of the
chosen reference algorithm on the loaded graph. -/
def run_python_vals {G M : Type} (degreeFn : G → M)
    (primary : G → Except String M) (g : G) : M :=
  pyTry (primary g) (fun _ => degreeFn g)

end Centrality

namespace RunScripts

/- Model of src/run_scripts/run_all_algos.py. -/

/-- Exceptions distinguished by the handlers of run_cpp_algorithm. -/
inductive PyExc where
  | timeoutExpired
  | fileNotFound
  | otherExc (msg : String)
deriving DecidableEq

/-- Behaviour of one attempted child process, an input of the model: the
child completes with an exit code after an observed elapsed time, or the
timeout fires, or the spawn itself fails (missing binary, or any other
spawn error). -/
inductive SpawnOutcome where
  | completed (exitCode : Int) (elapsed : ℚ)
  | timedOut
  | spawnNotFound
  | spawnError (msg : String)
deriving DecidableEq

/-- Whether the outcome involved an actually created child process. -/
def childSpawned : SpawnOutcome → Bool
  | .completed _ _ => true
  | .timedOut => true
  | .spawnNotFound => false
  | .spawnError _ => false

/-- Model of subprocess.run with a timeout: a value on completion, an
exception otherwise. -/
def subprocessRunTimed (o : SpawnOutcome) : Except PyExc (Int × ℚ) :=
  match o with
  | .completed rc t => Except.ok (rc, t)
  | .timedOut => Except.error PyExc.timeoutExpired
  | .spawnNotFound => Except.error PyExc.fileNotFound
  | .spawnError m => Except.error (PyExc.otherExc m)

/-- Model of run_cpp_algorithm (run_all_algos.py lines 141-164): the
subprocess call runs inside a try with handlers for TimeoutExpired,
FileNotFoundError and every other exception, and every path returns an
(elapsed, status) pair. -/
def run_cpp_algorithm (timeout : ℚ) (o : SpawnOutcome) : ℚ × String :=
  match subprocessRunTimed o with
  | .ok (rc, t) =>
    if rc = 0 then (t, "Success")
    else (t, "Failed (exit code " ++ toString rc ++ ")")
  | .error .timeoutExpired => (timeout, "Timeout")
  | .error .fileNotFound => (0, "Binary not found")
  | .error (.otherExc m) => (0, "Error: " ++ m)

/-- Claim-shaped total restatement of run_cpp_algorithm: every child
failure mode maps to a returned status, with no exception left over. -/
def spec_run_cpp (timeout : ℚ) : SpawnOutcome → ℚ × String
  | .completed rc t =>
    (t, if rc = 0 then "Success" else "Failed (exit code " ++ toString rc ++ ")")
  | .timedOut => (timeout, "Timeout")
  | .spawnNotFound => (0, "Binary not found")
  | .spawnError m => (0, "Error: " ++ m)

/-- Behaviour of one in-process NetworkX computation, an input of the
model: it raises, or returns a value dict after an observed elapsed time. -/
inductive PyAlgoOutcome (M : Type) where
  | raises (msg : String)
  | returns (vals : M) (elapsed : ℚ)

/-- Model of run_python_algorithm (run_all_algos.py lines 166-181): the
computation runs to completion with no forcible termination; only
afterwards is the observed elapsed time compared with the timeout budget,
and an exception anywhere yields an Error status. -/
def run_python_algorithm {M : Type} (timeout : ℚ) :
    PyAlgoOutcome M → Option M × ℚ × String
  | .raises m => (none, 0, "Error: " ++ m)
  | .returns vals t =>
    if timeout < t then (none, t, "Timeout") else (some vals, t, "Success")

/-- Model of the Python round(x, 3) used for runtime_ms.  Python rounds
half to even; the half-up floor here differs only on exact ten-thousandths
ties, and no claim inspects the rounded value. -/
def pyRound3 (x : ℚ) : ℚ := ((Rat.floor (x * 1000 + 1 / 2) : ℤ) : ℚ) / 1000

/-- One row of the benchmark_results table (the dict literals appended in
run_all_benchmarks). -/
structure Row where
  dataset : String
  algorithm : String
  nodes : Nat
  edges : Nat
  runtime_ms : ℚ
  status : String
  implementation : String
deriving DecidableEq

/-- The Result Aggregator record operation as the source implements it:
benchmark_results.append of the outcome row. -/
def record (table : List Row) (r : Row) : List Row := table ++ [r]

/-- Number of rows of the table carrying a given (dataset, algorithm) key. -/
def countKey (rows : List Row) (d a : String) : Nat :=
  (rows.filter (fun r => r.dataset == d && r.algorithm == a)).length

/-- Algorithms excluded a priori (run_all_algos.py lines 31-34). -/
def EXCLUDE_ALGOS : List String := ["girvan_newman", "eigenvector"]

/-- Timeout configured for each algorithm run (run_all_algos.py line 37). -/
def TIMEOUT : ℚ := 120

/-- Model of should_skip_algorithm (run_all_algos.py lines 124-139),
including the Python substring tests on the algorithm name. -/
def should_skip_algorithm (name : String) (numEdges : Nat) : Bool × String :=
  if EXCLUDE_ALGOS.any (fun e => strContains name e) then
    (true, "Excluded (too slow)")
  else if strContains name "betweenness" && decide (50000 < numEdges) then
    (true, "Skipped (graph too large: " ++ toString numEdges ++ " edges)")
  else if strContains name "closeness" && decide (100000 < numEdges) then
    (true, "Skipped (graph too large: " ++ toString numEdges ++ " edges)")
  else (false, "")

/-- Static configuration of one algorithm: its name, whether a C++
executable path is configured, and whether a Python fallback function is
configured. -/
structure AlgoInfo where
  name : String
  hasCpp : Bool
  hasPython : Bool
deriving DecidableEq

/-- The algorithm table of run_all_benchmarks (lines 204-243): four
centrality algorithms with both implementations, and three with only a
C++ implementation. -/
def allAlgos : List AlgoInfo :=
  [ ⟨"degree", true, true⟩,
    ⟨"closeness", true, true⟩,
    ⟨"betweenness", true, true⟩,
    ⟨"pagerank", true, true⟩,
    ⟨"label_propagation", true, false⟩,
    ⟨"kosaraju", true, false⟩,
    ⟨"tarjan", true, false⟩ ]

/-- External behaviour of one (dataset, algorithm) pair: whether the C++
executable exists and is executable, what its spawn does, and what the
NetworkX computation does. -/
structure PairWorld where
  cppPresent : Bool
  cppOutcome : SpawnOutcome
  pyOutcome : PyAlgoOutcome (List (Int × ℚ))

/-- Observable side events of processing one pair: a C++ child process was
actually spawned, or the Python fallback computation ran. -/
inductive Ev where
  | spawnCpp
  | runPython
deriving DecidableEq

/-- Model of the body of the benchmark loop for one (dataset, algorithm)
pair (run_all_benchmarks, lines 264-346): skip check, guarded C++ attempt,
then Python fallback only when the C++ path did not succeed, each branch
appending at most one result row. -/
def processPair (useCpp : Bool) (dsName : String) (stats : Nat × Nat)
    (algo : AlgoInfo) (w : PairWorld) : List Row × List Ev :=
  let sk := should_skip_algorithm algo.name stats.2
  if sk.1 then
    ([⟨dsName, algo.name, stats.1, stats.2, -1, sk.2, "N/A"⟩], [])
  else
    let cppAttempted := useCpp && algo.hasCpp && w.cppPresent
    let cppRes : Option (ℚ × String) :=
      if cppAttempted then some (run_cpp_algorithm TIMEOUT w.cppOutcome) else none
    let cppEvs : List Ev :=
      if cppAttempted && childSpawned w.cppOutcome then [Ev.spawnCpp] else []
    let success :=
      match cppRes with
      | some (_, st) => st == "Success"
      | none => false
    let cppRows : List Row :=
      match cppRes with
      | some (rt, st) =>
        if st == "Success" then
          [⟨dsName, algo.name, stats.1, stats.2, pyRound3 (rt * 1000), st, "C++"⟩]
        else []
      | none => []
    if success then (cppRows, cppEvs)
    else if algo.hasPython then
      let pr := run_python_algorithm TIMEOUT w.pyOutcome
      let row : Row :=
        match pr with
        | (some vals, rt, st) =>
          if st == "Success" && !vals.isEmpty then
            ⟨dsName, algo.name, stats.1, stats.2, pyRound3 (rt * 1000), st, "Python"⟩
          else ⟨dsName, algo.name, stats.1, stats.2, -1, st, "Python"⟩
        | (none, _, st) => ⟨dsName, algo.name, stats.1, stats.2, -1, st, "Python"⟩
      (cppRows ++ [row], cppEvs ++ [Ev.runPython])
    else (cppRows, cppEvs)

/-- One entry of the dataset registry passed to run_all_benchmarks: the
dataset name, whether its edge file exists, and the (nodes, edges) pair
that get_graph_stats reports. -/
structure DsEntry where
  name : String
  fileExists : Bool
  stats : Nat × Nat
deriving DecidableEq

/-- Model of the run_all_benchmarks double loop (lines 253-347): datasets
whose file is missing are skipped whole; every algorithm of every
remaining dataset is processed in order, rows and the attempted pairs
accumulating by appends. -/
def run_all_benchmarks (useCpp : Bool) (datasets : List DsEntry)
    (env : String → String → PairWorld) :
    List Row × List (String × String) :=
  datasets.foldl
    (fun acc ds =>
      if ds.fileExists then
        allAlgos.foldl
          (fun acc2 a =>
            let pr := processPair useCpp ds.name ds.stats a (env ds.name a.name)
            (acc2.1 ++ pr.1, acc2.2 ++ [(ds.name, a.name)]))
          acc
      else acc)
    ([], [])

/-- Rows contributed by one dataset entry in the characterisation of the
benchmark loop: nothing for a missing file, otherwise the concatenation of
the per-algorithm rows in table order. -/
def dsRows (useCpp : Bool) (env : String → String → PairWorld)
    (ds : DsEntry) : List Row :=
  if ds.fileExists then
    (allAlgos.map
      (fun a => (processPair useCpp ds.name ds.stats a (env ds.name a.name)).1)).flatten
  else []

/-- Pairs attempted for one dataset entry: every algorithm of the table,
unless the dataset file is missing. -/
def dsAttempts (ds : DsEntry) : List (String × String) :=
  if ds.fileExists then allAlgos.map (fun a => (ds.name, a.name)) else []

end RunScripts

namespace Facebook

/- Model of run_algorithm in src/run_facebook_analysis.py (lines 283-357). -/

/-- Behaviour of one run of an algorithm executable on the Facebook
dataset: completion with an exit code, output-file state, observed
measurements; or the five-minute timeout fires; or some other exception. -/
inductive FbOutcome where
  | completed (exitCode : Int) (outputExists : Bool) (outputLines : Nat)
      (runtime baselineMem peakMem : ℚ)
  | timedOut
  | raised (msg : String)
deriving DecidableEq

/-- Result dict returned by run_algorithm. -/
structure FbResult where
  algorithm : String
  runtime_seconds : Option ℚ
  memory_mb : Option ℚ
  output_lines : Nat
  status : String
deriving DecidableEq

/-- Model of run_algorithm: a missing executable returns None before any
spawn; a successful run reports the observed runtime and the parent RSS
delta; a failure, the timeout and every other exception return a result
dict with no runtime value. -/
def run_algorithm (algoName : String) (exeExists : Bool)
    (o : FbOutcome) : Option FbResult :=
  if !exeExists then none
  else
    match o with
    | .completed rc outEx lines t base peak =>
      if rc = 0 && outEx then
        some ⟨algoName, some t, some (max 0 (peak - base)), lines, "success"⟩
      else some ⟨algoName, none, none, 0, "failed"⟩
    | .timedOut => some ⟨algoName, none, none, 0, "timeout"⟩
    | .raised m => some ⟨algoName, none, none, 0, "error: " ++ m⟩

end Facebook

namespace AnalysisBench

/- Model of the module-level benchmark loop of
src/analysis/src/run_centrality_benchmark.py (lines 21-55). -/

/-- Behaviour of one subprocess.run call of the loop, which is given no
timeout: it completes with some exit code (never inspected), or the spawn
fails and the call raises. -/
inductive CBOutcome where
  | completes (exitCode : Int)
  | spawnFail (msg : String)
deriving DecidableEq

/-- One row appended to the results table of the loop. -/
structure CBRow where
  graph : String
  algo : String
  time_ms : ℚ
  memory_mb : ℚ
  ops : Option Nat
deriving DecidableEq

/-- Model of estimate_ops (lines 21-26); Python returns None implicitly
for an unknown algorithm name. -/
def estimate_ops (algo : String) (v e : Nat) : Option Nat :=
  if algo = "degree" then some e
  else if algo = "closeness" then some (v * (v + e))
  else if algo = "betweenness" then some (v * e)
  else if algo = "eigenvector" then some (10 * e)
  else if algo = "pagerank" then some (20 * e)
  else none

/-- Measured environment of the loop: the spawn behaviour per pair, the
perf_counter and RSS deltas observed per pair, and the node and edge
counts of each graph. -/
structure CBEnv where
  spawn : String → String → CBOutcome
  time_ms : String → String → ℚ
  mem_mb : String → String → ℚ
  nodes : String → Nat
  edges : String → Nat

/-- Inner loop over the algorithms for one graph: subprocess.run is called
with no surrounding try, so a spawn failure propagates and the remaining
algorithms of the loop are never reached.  The first component records the
pairs whose body was entered. -/
def cbRunAlgos (envr : CBEnv) (g : String) :
    List String → List (String × String) × Except String (List CBRow)
  | [] => ([], Except.ok [])
  | a :: rest =>
    match envr.spawn g a with
    | .spawnFail m => ([(g, a)], Except.error m)
    | .completes _ =>
      let row : CBRow :=
        ⟨g, a, envr.time_ms g a, envr.mem_mb g a,
          estimate_ops a (envr.nodes g) (envr.edges g)⟩
      let r := cbRunAlgos envr g rest
      ((g, a) :: r.1, r.2.map (fun rs => row :: rs))

/-- Outer loop over the graphs: an uncaught exception in any inner loop
terminates the whole run. -/
def cbRun (envr : CBEnv) :
    List String → List String → List (String × String) × Except String (List CBRow)
  | [], _ => ([], Except.ok [])
  | g :: gs, algos =>
    let r1 := cbRunAlgos envr g algos
    match r1.2 with
    | .error m => (r1.1, Except.error m)
    | .ok rows1 =>
      let r2 := cbRun envr gs algos
      (r1.1 ++ r2.1, r2.2.map (fun rs => rows1 ++ rs))

/-- Environment in which every spawn fails with FileNotFoundError: the
configured executable directory of the script does not exist. -/
def cbBadEnv : CBEnv :=
  ⟨fun _ _ => CBOutcome.spawnFail ("FileNotFoundError"),
   fun _ _ => 0, fun _ _ => 0, fun _ => 0, fun _ => 0⟩

end AnalysisBench

/- Concrete decimal printers and parsers used to instantiate the abstract
Python builtins (str, int, float) on concrete witness inputs. -/

/-- Value of a decimal digit character, if it is one. -/
def digitV (c : Char) : Option Nat :=
  if 48 ≤ c.toNat ∧ c.toNat ≤ 57 then some (c.toNat - 48) else none

/-- Accumulating decimal parser over a digit list. -/
def parseNatAux (acc : Nat) : List Char → Option Nat
  | [] => some acc
  | c :: cs =>
    match digitV c with
    | some d => parseNatAux (acc * 10 + d) cs
    | none => none

/-- Decimal parser for a nonempty digit string. -/
def parseNatChars : List Char → Option Nat
  | [] => none
  | l => parseNatAux 0 l

/-- Fuelled decimal printer (the fuel makes the recursion structural). -/
def natToCharsAux : Nat → Nat → List Char → List Char
  | 0, _, acc => acc
  | fuel + 1, n, acc =>
    let d := Char.ofNat (48 + n % 10)
    if n < 10 then d :: acc else natToCharsAux fuel (n / 10) (d :: acc)

/-- Decimal printer for a natural number. -/
def natToChars (n : Nat) : List Char := natToCharsAux (n + 1) n []

/-- Decimal printer for an integer. -/
def intToChars : Int → List Char
  | .ofNat n => natToChars n
  | .negSucc n => '-' :: natToChars (n + 1)

/-- Decimal parser for an integer with optional leading minus sign. -/
def parseIntChars : List Char → Option Int
  | '-' :: cs => (parseNatChars cs).map (fun n => -(n : Int))
  | cs => (parseNatChars cs).map Int.ofNat
/- Lemmas about the sorted model. -/

theorem insSorted_perm {α : Type} (p : Int × α) (l : List (Int × α)) :
    (insSorted p l).Perm (p :: l) := by
  induction l with
  | nil => simp [insSorted]
  | cons q rest ih =>
    by_cases h : p.1 < q.1
    · simp [insSorted, h]
    · simp only [insSorted, if_neg h]
      exact (ih.cons q).trans (List.Perm.swap p q rest)

theorem pysortByKey_perm {α : Type} (l : List (Int × α)) :
    (pysortByKey l).Perm l := by
  induction l with
  | nil => simp [pysortByKey]
  | cons p rest ih =>
    simp only [pysortByKey, List.foldr_cons]
    exact (insSorted_perm p _).trans (ih.cons p)

theorem mem_insSorted {α : Type} {p x : Int × α} {l : List (Int × α)} :
    x ∈ insSorted p l ↔ x = p ∨ x ∈ l := by
  rw [(insSorted_perm p l).mem_iff, List.mem_cons]

theorem insSorted_sorted {α : Type} (p : Int × α) (l : List (Int × α))
    (hl : l.Pairwise (fun x y => x.1 ≤ y.1)) :
    (insSorted p l).Pairwise (fun x y => x.1 ≤ y.1) := by
  induction l with
  | nil => simp [insSorted]
  | cons q rest ih =>
    rcases List.pairwise_cons.mp hl with ⟨hq, hrest⟩
    by_cases h : p.1 < q.1
    · simp only [insSorted, if_pos h]
      refine List.pairwise_cons.mpr ⟨?_, hl⟩
      intro y hy
      rcases List.mem_cons.mp hy with rfl | hy
      · exact le_of_lt h
      · exact le_trans (le_of_lt h) (hq y hy)
    · simp only [insSorted, if_neg h]
      refine List.pairwise_cons.mpr ⟨?_, ih hrest⟩
      intro y hy
      rcases mem_insSorted.mp hy with rfl | hy
      · exact le_of_not_lt h
      · exact hq y hy

theorem pysortByKey_sorted {α : Type} (l : List (Int × α)) :
    (pysortByKey l).Pairwise (fun x y => x.1 ≤ y.1) := by
  induction l with
  | nil => simp [pysortByKey]
  | cons p rest ih =>
    simp only [pysortByKey, List.foldr_cons]
    exact insSorted_sorted p _ ih

theorem pysortByKey_strict {α : Type} (l : List (Int × α))
    (hnd : (l.map Prod.fst).Nodup) :
    ((pysortByKey l).map Prod.fst).Pairwise (fun x y => x < y) := by
  have hperm : ((pysortByKey l).map Prod.fst).Perm (l.map Prod.fst) :=
    (pysortByKey_perm l).map Prod.fst
  have hnd2 : ((pysortByKey l).map Prod.fst).Nodup := hperm.nodup_iff.mpr hnd
  have hle : ((pysortByKey l).map Prod.fst).Pairwise (fun x y => x ≤ y) :=
    List.pairwise_map.mpr (pysortByKey_sorted l)
  exact (hle.and hnd2).imp (fun h => lt_of_le_of_ne h.1 h.2)

/- Lemmas about the dict model. -/

theorem dinsert_of_not_mem {α : Type} {k : Int} (v : α) {l : List (Int × α)}
    (h : k ∉ l.map Prod.fst) : dinsert k v l = l ++ [(k, v)] := by
  induction l with
  | nil => simp [dinsert]
  | cons q rest ih =>
    obtain ⟨qk, qv⟩ := q
    simp only [List.map_cons, List.mem_cons, not_or] at h
    have hq : ¬qk = k := fun hh => h.1 hh.symm
    simp only [dinsert, if_neg hq, List.cons_append]
    rw [ih h.2]

theorem foldl_dinsert_fresh {α : Type} (l : List (Int × α)) : ∀ acc,
    (l.map Prod.fst).Nodup →
    (∀ k ∈ l.map Prod.fst, k ∉ acc.map Prod.fst) →
    l.foldl (fun a p => dinsert p.1 p.2 a) acc = acc ++ l := by
  induction l with
  | nil => intro acc _ _; simp
  | cons p rest ih =>
    intro acc hnd hdisj
    simp only [List.map_cons, List.nodup_cons] at hnd
    obtain ⟨hp, hrest⟩ := hnd
    simp only [List.foldl_cons]
    rw [dinsert_of_not_mem p.2 (hdisj p.1 (by simp))]
    rw [ih (acc ++ [(p.1, p.2)]) hrest ?_]
    · simp
    · intro k hk
      simp only [List.map_append, List.mem_append, not_or, List.map_cons,
        List.map_nil, List.mem_singleton]
      refine ⟨hdisj k (by simp [hk]), ?_⟩
      intro hkp
      exact hp (hkp ▸ hk)

theorem dlookup_eq_some_iff {α : Type} {k : Int} {v : α} {l : List (Int × α)}
    (hnd : (l.map Prod.fst).Nodup) : dlookup k l = some v ↔ (k, v) ∈ l := by
  induction l with
  | nil => simp [dlookup]
  | cons q rest ih =>
    obtain ⟨qk, qv⟩ := q
    simp only [List.map_cons, List.nodup_cons] at hnd
    obtain ⟨hq, hrest⟩ := hnd
    by_cases h : qk = k
    · subst h
      simp only [dlookup, if_pos rfl, List.mem_cons]
      constructor
      · intro hv
        obtain rfl := Option.some_inj.mp hv
        exact Or.inl rfl
      · rintro (hv | hv)
        · have h2 := congrArg Prod.snd hv
          simp only at h2
          rw [h2]
          simp
        · exact absurd (List.mem_map.mpr ⟨(qk, v), hv, rfl⟩) hq
    · simp only [dlookup, if_neg h, List.mem_cons]
      rw [ih hrest]
      constructor
      · exact Or.inr
      · rintro (hv | hv)
        · exact absurd (congrArg Prod.fst hv).symm h
        · exact hv

theorem dlookup_eq_none_iff {α : Type} {k : Int} {l : List (Int × α)} :
    dlookup k l = none ↔ k ∉ l.map Prod.fst := by
  induction l with
  | nil => simp [dlookup]
  | cons q rest ih =>
    obtain ⟨qk, qv⟩ := q
    by_cases h : qk = k
    · simp [dlookup, h]
    · simp only [dlookup, if_neg h, List.map_cons, List.mem_cons, not_or]
      rw [ih]
      constructor
      · intro hr
        exact ⟨fun hh => h hh.symm, hr⟩
      · exact fun hh => hh.2

theorem dlookup_perm {α : Type} {l1 l2 : List (Int × α)} (hp : l1.Perm l2)
    (hnd : (l1.map Prod.fst).Nodup) (k : Int) : dlookup k l1 = dlookup k l2 := by
  have hnd2 : (l2.map Prod.fst).Nodup := ((hp.map Prod.fst).nodup_iff).mp hnd
  cases hv : dlookup k l1 with
  | some v =>
    have hm : (k, v) ∈ l2 := hp.mem_iff.mp ((dlookup_eq_some_iff hnd).mp hv)
    exact ((dlookup_eq_some_iff hnd2).mpr hm).symm
  | none =>
    have hm : k ∉ l2.map Prod.fst := by
      intro hk
      exact (dlookup_eq_none_iff.mp hv) (((hp.map Prod.fst).mem_iff).mpr hk)
    exact (dlookup_eq_none_iff.mpr hm).symm

/- Lemmas about the line model. -/

theorem dropWhile_eq_self_of {l : List Char}
    (h : ∀ c ∈ l, pyIsSpace c = false) : l.dropWhile pyIsSpace = l := by
  cases l with
  | nil => rfl
  | cons c rest => simp [List.dropWhile_cons, h c (by simp)]

theorem pstrip_eq_self {l : List Char}
    (h : ∀ c ∈ l, pyIsSpace c = false) : pstrip l = l := by
  unfold pstrip
  rw [dropWhile_eq_self_of h]
  rw [dropWhile_eq_self_of (fun c hc => h c (List.mem_reverse.mp hc))]
  exact List.reverse_reverse l

theorem splitComma_no_comma {l : List Char}
    (h : ∀ c ∈ l, c ≠ ',') : splitComma l = [l] := by
  induction l with
  | nil => rfl
  | cons c rest ih =>
    have hc : ¬c = ',' := h c (by simp)
    simp only [splitComma, if_neg hc]
    rw [ih (fun x hx => h x (by simp [hx]))]

theorem splitComma_append {a b : List Char}
    (h : ∀ c ∈ a, c ≠ ',') : splitComma (a ++ ',' :: b) = a :: splitComma b := by
  induction a with
  | nil => simp [splitComma]
  | cons c rest ih =>
    have hc : ¬c = ',' := h c (by simp)
    have ih2 := ih (fun x hx => h x (by simp [hx]))
    simp only [List.cons_append, splitComma, List.append_eq, ih2, if_neg hc]

theorem splitComma_ne_nil (l : List Char) : splitComma l ≠ [] := by
  cases l with
  | nil => simp [splitComma]
  | cons c rest =>
    simp only [splitComma]
    by_cases h : c = ','
    · simp [h]
    · simp only [if_neg h]
      cases splitComma rest <;> simp

/- Lemmas about the CSV reader. -/

theorem read_line_step_eq {α : Type} (pyInt : List Char → Option Int)
    (pyFloat : List Char → Option α) (acc : List (Int × α)) (line : List Char) :
    Centrality.read_line_step pyInt pyFloat acc line =
      match Centrality.parse_line_spec pyInt pyFloat line with
      | some nv => dinsert nv.1 nv.2 acc
      | none => acc := by
  unfold Centrality.read_line_step Centrality.parse_line_spec
  cases hs : splitComma (pstrip line) with
  | nil => rfl
  | cons p0 ps =>
    cases ps with
    | nil => rfl
    | cons p1 rest =>
      cases hi : pyInt p0 with
      | none => cases hf : pyFloat p1 <;> simp [hi, hf]
      | some n => cases hf : pyFloat p1 <;> simp [hi, hf]

theorem foldl_read_line_eq {α : Type} (pyInt : List Char → Option Int)
    (pyFloat : List Char → Option α) (lines : List (List Char)) : ∀ acc,
    lines.foldl (Centrality.read_line_step pyInt pyFloat) acc =
      (lines.filterMap (Centrality.parse_line_spec pyInt pyFloat)).foldl
        (fun a nv => dinsert nv.1 nv.2 a) acc := by
  induction lines with
  | nil => intro acc; rfl
  | cons line rest ih =>
    intro acc
    simp only [List.foldl_cons, List.filterMap_cons]
    rw [read_line_step_eq]
    cases hp : Centrality.parse_line_spec pyInt pyFloat line with
    | none => simpa [hp] using ih acc
    | some nv => simpa [hp] using ih (dinsert nv.1 nv.2 acc)

theorem read_csv_eq_spec {α : Type} (pyInt : List Char → Option Int)
    (pyFloat : List Char → Option α)
    (fs : String → Option (List (List Char))) (path : Option String) :
    Centrality.read_centrality_csv pyInt pyFloat fs path =
      Centrality.read_csv_spec pyInt pyFloat fs path := by
  cases path with
  | none => rfl
  | some p =>
    unfold Centrality.read_centrality_csv Centrality.read_csv_spec
    cases hfs : fs p with
    | none => simp [hfs]
    | some lines =>
      cases lines with
      | nil => simp [hfs, Centrality.readBody, pyTry]
      | cons hd rest =>
        simp only [hfs, Centrality.readBody, pyTry]
        exact foldl_read_line_eq pyInt pyFloat rest []

theorem filterMap_map_eq_self {α β : Type} (f : β → Option α) (g : α → β)
    (l : List α) (h : ∀ p ∈ l, f (g p) = some p) :
    (l.map g).filterMap f = l := by
  induction l with
  | nil => rfl
  | cons p rest ih =>
    simp only [List.map_cons, List.filterMap_cons, h p (by simp)]
    rw [ih (fun q hq => h q (by simp [hq]))]

/- Lemmas about the Output Reconciler. -/

theorem selectSrcCsv_eq_spec (ex : String → Bool) (ran : Bool)
    (od cd sh bs : String) :
    Centrality.selectSrcCsv ex ran od cd sh bs =
      Centrality.spec_select ex ran od cd sh bs := by
  unfold Centrality.selectSrcCsv Centrality.spec_select
  cases ran with
  | false => simp
  | true =>
    by_cases h : ex (Centrality.pjoin cd (sh ++ "_centrality.csv")) <;> simp [h]

theorem moveToCanonical_none (A : String → String) (rf : String → String → Bool)
    (fs : String → Bool) (dst : String) :
    Centrality.moveToCanonical A rf fs none dst = ⟨fs, false, false⟩ := rfl

theorem moveToCanonical_same (A : String → String) (rf : String → String → Bool)
    (fs : String → Bool) (s dst : String) (h : A s = A dst) :
    Centrality.moveToCanonical A rf fs (some s) dst = ⟨fs, false, false⟩ := by
  simp [Centrality.moveToCanonical, h]

theorem moveToCanonical_failed (A : String → String) (rf : String → String → Bool)
    (fs : String → Bool) (s dst : String) (hA : ¬A s = A dst)
    (hrf : rf s dst = true) :
    Centrality.moveToCanonical A rf fs (some s) dst = ⟨fs, true, true⟩ := by
  simp [Centrality.moveToCanonical, Centrality.osReplace, hA, hrf]

theorem moveToCanonical_renamed (A : String → String) (rf : String → String → Bool)
    (fs : String → Bool) (s dst : String) (hA : ¬A s = A dst)
    (hrf : rf s dst = false) :
    Centrality.moveToCanonical A rf fs (some s) dst =
      ⟨fun p => if p = A dst then true else if p = A s then false else fs p,
       true, false⟩ := by
  simp [Centrality.moveToCanonical, Centrality.osReplace, hA, hrf]

theorem reconcile_idem_fs (A : String → String) (rf : String → String → Bool)
    (ran : Bool) (od cd sh bs : String) (fs : String → Bool) :
    (Centrality.reconcile A rf ran od cd sh bs
        (Centrality.reconcile A rf ran od cd sh bs fs).fs).fs
      = (Centrality.reconcile A rf ran od cd sh bs fs).fs := by
  classical
  cases hsel : Centrality.selectSrcCsv (Centrality.exA A fs) ran od cd sh bs with
  | none =>
    have h1 : (Centrality.reconcile A rf ran od cd sh bs fs).fs = fs := by
      simp [Centrality.reconcile, hsel, Centrality.moveToCanonical]
    rw [h1]
    exact h1
  | some s =>
    by_cases hA :
        A s = A (Centrality.pjoin od (sh ++ "_" ++ bs ++ ".csv"))
    · have h1 : (Centrality.reconcile A rf ran od cd sh bs fs).fs = fs := by
        simp [Centrality.reconcile, hsel,
          moveToCanonical_same A rf fs s _ hA]
      rw [h1]
      exact h1
    · by_cases hrf : rf s (Centrality.pjoin od (sh ++ "_" ++ bs ++ ".csv")) = true
      · have h1 : (Centrality.reconcile A rf ran od cd sh bs fs).fs = fs := by
          simp [Centrality.reconcile, hsel,
            moveToCanonical_failed A rf fs s _ hA hrf]
        rw [h1]
        exact h1
      · have hrf2 : rf s (Centrality.pjoin od (sh ++ "_" ++ bs ++ ".csv")) = false :=
          Bool.eq_false_iff.mpr hrf
        have h1 : (Centrality.reconcile A rf ran od cd sh bs fs).fs =
            fun p => if p = A (Centrality.pjoin od (sh ++ "_" ++ bs ++ ".csv"))
              then true
              else if p = A s then false else fs p := by
          simp [Centrality.reconcile, hsel,
            moveToCanonical_renamed A rf fs s _ hA hrf2]
        rw [h1]
        set dst := Centrality.pjoin od (sh ++ "_" ++ bs ++ ".csv") with hdst
        set fs2 : String → Bool :=
          fun p => if p = A dst then true else if p = A s then false else fs p
          with hfs2
        have he1 : Centrality.exA A fs2 dst = true := by
          simp [Centrality.exA, hfs2]
        have hfind : (Centrality.csvCandidates od cd sh bs).find?
            (Centrality.exA A fs2) = some dst := by
          unfold Centrality.csvCandidates
          rw [List.find?_cons_of_pos _ he1]
        cases ran with
        | false =>
          have hsel2 : Centrality.selectSrcCsv (Centrality.exA A fs2)
              false od cd sh bs = some dst := by
            simp [Centrality.selectSrcCsv, hfind]
          simp [Centrality.reconcile, hsel2,
            moveToCanonical_same A rf fs2 dst dst rfl]
        | true =>
          by_cases hfb2 :
              Centrality.exA A fs2 (Centrality.pjoin cd (sh ++ "_centrality.csv")) = true
          · have hAfb : A (Centrality.pjoin cd (sh ++ "_centrality.csv")) = A dst := by
              by_cases hfd : A (Centrality.pjoin cd (sh ++ "_centrality.csv")) = A dst
              · exact hfd
              · exfalso
                by_cases hfs : A (Centrality.pjoin cd (sh ++ "_centrality.csv")) = A s
                · rw [Centrality.exA, hfs2] at hfb2
                  rw [hfs] at hfb2
                  simp [hA] at hfb2
                · have hex : Centrality.exA A fs
                      (Centrality.pjoin cd (sh ++ "_centrality.csv")) = true := by
                    rw [Centrality.exA, hfs2] at hfb2
                    simp only [if_neg hfd, if_neg hfs] at hfb2
                    exact hfb2
                  rw [show Centrality.selectSrcCsv (Centrality.exA A fs)
                      true od cd sh bs = some (Centrality.pjoin cd (sh ++ "_centrality.csv"))
                    from by simp [Centrality.selectSrcCsv, hex]] at hsel
                  have : Centrality.pjoin cd (sh ++ "_centrality.csv") = s :=
                    Option.some_inj.mp hsel
                  exact hfs (by rw [this])
            have hsel2 : Centrality.selectSrcCsv (Centrality.exA A fs2)
                true od cd sh bs = some (Centrality.pjoin cd (sh ++ "_centrality.csv")) := by
              simp [Centrality.selectSrcCsv, hfb2]
            simp [Centrality.reconcile, hsel2,
              moveToCanonical_same A rf fs2 _ dst hAfb]
          · have hfb3 : Centrality.exA A fs2
                (Centrality.pjoin cd (sh ++ "_centrality.csv")) = false :=
              Bool.eq_false_iff.mpr hfb2
            have hsel2 : Centrality.selectSrcCsv (Centrality.exA A fs2)
                true od cd sh bs = some dst := by
              simp [Centrality.selectSrcCsv, hfb3, hfind]
            simp [Centrality.reconcile, hsel2,
              moveToCanonical_same A rf fs2 dst dst rfl]

/- Lemmas about the benchmark loop of run_scripts/run_all_algos.py. -/

theorem processPair_char (useCpp : Bool) (dsName : String) (stats : Nat × Nat)
    (algo : RunScripts.AlgoInfo) (w : RunScripts.PairWorld) :
    (RunScripts.processPair useCpp dsName stats algo w).1 = [] ∨
    ∃ rt st impl, (RunScripts.processPair useCpp dsName stats algo w).1 =
      [⟨dsName, algo.name, stats.1, stats.2, rt, st, impl⟩] := by
  by_cases hsk : (RunScripts.should_skip_algorithm algo.name stats.2).1 = true
  · refine Or.inr ⟨-1, (RunScripts.should_skip_algorithm algo.name stats.2).2, "N/A", ?_⟩
    simp [RunScripts.processPair, hsk]
  · by_cases hatt : (useCpp && algo.hasCpp && w.cppPresent) = true
    · rcases hcr : RunScripts.run_cpp_algorithm RunScripts.TIMEOUT w.cppOutcome
        with ⟨rt, st⟩
      by_cases hs : (st == "Success") = true
      · refine Or.inr ⟨RunScripts.pyRound3 (rt * 1000), st, "C++", ?_⟩
        simp [RunScripts.processPair, hsk, hatt, hcr, hs]
      · by_cases hpy : algo.hasPython = true
        · rcases hpr : RunScripts.run_python_algorithm RunScripts.TIMEOUT w.pyOutcome
            with ⟨vo, rt0, st0⟩
          cases vo with
          | none =>
            refine Or.inr ⟨-1, st0, "Python", ?_⟩
            simp [RunScripts.processPair, hsk, hatt, hcr, hs, hpy, hpr]
          | some vals =>
            by_cases hc : (st0 == "Success" && !vals.isEmpty) = true
            · refine Or.inr ⟨RunScripts.pyRound3 (rt0 * 1000), st0, "Python", ?_⟩
              simp [RunScripts.processPair, hsk, hatt, hcr, hs, hpy, hpr, hc]
            · refine Or.inr ⟨-1, st0, "Python", ?_⟩
              simp [RunScripts.processPair, hsk, hatt, hcr, hs, hpy, hpr, hc]
        · refine Or.inl ?_
          simp [RunScripts.processPair, hsk, hatt, hcr, hs, hpy]
    · by_cases hpy : algo.hasPython = true
      · rcases hpr : RunScripts.run_python_algorithm RunScripts.TIMEOUT w.pyOutcome
          with ⟨vo, rt0, st0⟩
        cases vo with
        | none =>
          refine Or.inr ⟨-1, st0, "Python", ?_⟩
          simp [RunScripts.processPair, hsk, hatt, hpy, hpr]
        | some vals =>
          by_cases hc : (st0 == "Success" && !vals.isEmpty) = true
          · refine Or.inr ⟨RunScripts.pyRound3 (rt0 * 1000), st0, "Python", ?_⟩
            simp [RunScripts.processPair, hsk, hatt, hpy, hpr, hc]
          · refine Or.inr ⟨-1, st0, "Python", ?_⟩
            simp [RunScripts.processPair, hsk, hatt, hpy, hpr, hc]
      · refine Or.inl ?_
        simp [RunScripts.processPair, hsk, hatt, hpy]

theorem countKey_append (xs ys : List RunScripts.Row) (d a : String) :
    RunScripts.countKey (xs ++ ys) d a =
      RunScripts.countKey xs d a + RunScripts.countKey ys d a := by
  simp [RunScripts.countKey, List.filter_append]

theorem countKey_pp_le (useCpp : Bool) (dsName : String) (stats : Nat × Nat)
    (algo : RunScripts.AlgoInfo) (w : RunScripts.PairWorld) (d a : String) :
    RunScripts.countKey (RunScripts.processPair useCpp dsName stats algo w).1 d a ≤ 1 := by
  rcases processPair_char useCpp dsName stats algo w with h | ⟨rt, st, impl, h⟩
  · simp [h, RunScripts.countKey]
  · rw [h]
    simp only [RunScripts.countKey, List.filter]
    cases (⟨dsName, algo.name, stats.1, stats.2, rt, st, impl⟩ : RunScripts.Row).dataset == d
      && (⟨dsName, algo.name, stats.1, stats.2, rt, st, impl⟩ : RunScripts.Row).algorithm == a
      <;> simp

theorem countKey_pp_zero (useCpp : Bool) (dsName : String) (stats : Nat × Nat)
    (algo : RunScripts.AlgoInfo) (w : RunScripts.PairWorld) (d a : String)
    (h : ¬(dsName = d ∧ algo.name = a)) :
    RunScripts.countKey (RunScripts.processPair useCpp dsName stats algo w).1 d a = 0 := by
  rcases processPair_char useCpp dsName stats algo w with hr | ⟨rt, st, impl, hr⟩
  · simp [hr, RunScripts.countKey]
  · rw [hr]
    simp only [RunScripts.countKey, List.filter, List.length_eq_zero]
    have : ((⟨dsName, algo.name, stats.1, stats.2, rt, st, impl⟩ : RunScripts.Row).dataset == d
        && (⟨dsName, algo.name, stats.1, stats.2, rt, st, impl⟩ : RunScripts.Row).algorithm == a) = false := by
      simp only [Bool.and_eq_false_iff, beq_eq_false_iff_ne]
      by_cases hd : dsName = d
      · exact Or.inr (fun ha => h ⟨hd, ha⟩)
      · exact Or.inl hd
    simp [this]

theorem countKey_algos_zero_of_name (useCpp : Bool) (nm : String)
    (stats : Nat × Nat) (env : String → String → RunScripts.PairWorld)
    (d a : String) :
    ∀ algos : List RunScripts.AlgoInfo, a ∉ algos.map RunScripts.AlgoInfo.name →
    RunScripts.countKey
      ((algos.map (fun al =>
        (RunScripts.processPair useCpp nm stats al (env nm al.name)).1)).flatten) d a = 0 := by
  intro algos
  induction algos with
  | nil => intro _; simp [RunScripts.countKey]
  | cons al rest ih =>
    intro hna
    simp only [List.map_cons, List.mem_cons, not_or] at hna
    simp only [List.map_cons, List.flatten_cons, countKey_append]
    rw [countKey_pp_zero useCpp nm stats al _ d a (fun hc => hna.1 hc.2.symm)]
    rw [ih hna.2]

theorem countKey_algos_le (useCpp : Bool) (nm : String) (stats : Nat × Nat)
    (env : String → String → RunScripts.PairWorld) (d a : String) :
    ∀ algos : List RunScripts.AlgoInfo,
    (algos.map RunScripts.AlgoInfo.name).Nodup →
    RunScripts.countKey
      ((algos.map (fun al =>
        (RunScripts.processPair useCpp nm stats al (env nm al.name)).1)).flatten) d a ≤ 1 := by
  intro algos
  induction algos with
  | nil => intro _; simp [RunScripts.countKey]
  | cons al rest ih =>
    intro hnd
    simp only [List.map_cons, List.nodup_cons] at hnd
    simp only [List.map_cons, List.flatten_cons, countKey_append]
    by_cases hm : al.name = a
    · rw [countKey_algos_zero_of_name useCpp nm stats env d a rest (hm ▸ hnd.1)]
      have := countKey_pp_le useCpp nm stats al (env nm al.name) d a
      omega
    · rw [countKey_pp_zero useCpp nm stats al _ d a (fun hc => hm hc.2)]
      simpa using ih hnd.2

theorem countKey_dsRows_le (useCpp : Bool) (env : String → String → RunScripts.PairWorld)
    (ds : RunScripts.DsEntry) (d a : String) :
    RunScripts.countKey (RunScripts.dsRows useCpp env ds) d a ≤ 1 := by
  unfold RunScripts.dsRows
  by_cases hf : ds.fileExists = true
  · simp only [hf, if_true]
    exact countKey_algos_le useCpp ds.name ds.stats env d a RunScripts.allAlgos (by decide)
  · simp [hf, RunScripts.countKey]

theorem countKey_dsRows_zero (useCpp : Bool) (env : String → String → RunScripts.PairWorld)
    (ds : RunScripts.DsEntry) (d a : String) (h : ds.name ≠ d) :
    RunScripts.countKey (RunScripts.dsRows useCpp env ds) d a = 0 := by
  unfold RunScripts.dsRows
  by_cases hf : ds.fileExists = true
  · simp only [hf, if_true]
    induction RunScripts.allAlgos with
    | nil => simp [RunScripts.countKey]
    | cons al rest ih =>
      simp only [List.map_cons, List.flatten_cons, countKey_append]
      rw [countKey_pp_zero useCpp ds.name ds.stats al _ d a (fun hc => h hc.1)]
      simpa using ih
  · simp [hf, RunScripts.countKey]

theorem countKey_datasets_zero (useCpp : Bool)
    (env : String → String → RunScripts.PairWorld) (d a : String) :
    ∀ datasets : List RunScripts.DsEntry,
    d ∉ datasets.map RunScripts.DsEntry.name →
    RunScripts.countKey
      ((datasets.map (RunScripts.dsRows useCpp env)).flatten) d a = 0 := by
  intro datasets
  induction datasets with
  | nil => intro _; simp [RunScripts.countKey]
  | cons ds rest ih =>
    intro hnm
    simp only [List.map_cons, List.mem_cons, not_or] at hnm
    simp only [List.map_cons, List.flatten_cons, countKey_append]
    rw [countKey_dsRows_zero useCpp env ds d a (fun hc => hnm.1 hc.symm)]
    rw [ih hnm.2]

theorem countKey_datasets_le (useCpp : Bool)
    (env : String → String → RunScripts.PairWorld) (d a : String) :
    ∀ datasets : List RunScripts.DsEntry,
    (datasets.map RunScripts.DsEntry.name).Nodup →
    RunScripts.countKey
      ((datasets.map (RunScripts.dsRows useCpp env)).flatten) d a ≤ 1 := by
  intro datasets
  induction datasets with
  | nil => intro _; simp [RunScripts.countKey]
  | cons ds rest ih =>
    intro hnd
    simp only [List.map_cons, List.nodup_cons] at hnd
    simp only [List.map_cons, List.flatten_cons, countKey_append]
    by_cases hm : ds.name = d
    · rw [countKey_datasets_zero useCpp env d a rest (hm ▸ hnd.1)]
      have := countKey_dsRows_le useCpp env ds d a
      omega
    · rw [countKey_dsRows_zero useCpp env ds d a hm]
      simpa using ih hnd.2

theorem bench_inner_general (useCpp : Bool)
    (env : String → String → RunScripts.PairWorld) (nm : String)
    (stats : Nat × Nat) :
    ∀ (algos : List RunScripts.AlgoInfo)
      (acc : List RunScripts.Row × List (String × String)),
    algos.foldl
      (fun acc2 a =>
        let pr := RunScripts.processPair useCpp nm stats a (env nm a.name)
        (acc2.1 ++ pr.1, acc2.2 ++ [(nm, a.name)]))
      acc
    = (acc.1 ++
        (algos.map (fun a =>
          (RunScripts.processPair useCpp nm stats a (env nm a.name)).1)).flatten,
       acc.2 ++ algos.map (fun a => (nm, a.name))) := by
  intro algos
  induction algos with
  | nil => intro acc; simp
  | cons al rest ih =>
    intro acc
    simp only [List.foldl_cons, List.map_cons, List.flatten_cons]
    rw [ih]
    simp

theorem run_all_benchmarks_eq (useCpp : Bool)
    (env : String → String → RunScripts.PairWorld) :
    ∀ datasets : List RunScripts.DsEntry,
    RunScripts.run_all_benchmarks useCpp datasets env =
      ((datasets.map (RunScripts.dsRows useCpp env)).flatten,
       (datasets.map RunScripts.dsAttempts).flatten) := by
  have hgen : ∀ (datasets : List RunScripts.DsEntry)
      (acc : List RunScripts.Row × List (String × String)),
      datasets.foldl
        (fun acc ds =>
          if ds.fileExists then
            RunScripts.allAlgos.foldl
              (fun acc2 a =>
                let pr := RunScripts.processPair useCpp ds.name ds.stats a
                  (env ds.name a.name)
                (acc2.1 ++ pr.1, acc2.2 ++ [(ds.name, a.name)]))
              acc
          else acc)
        acc
      = (acc.1 ++ (datasets.map (RunScripts.dsRows useCpp env)).flatten,
         acc.2 ++ (datasets.map RunScripts.dsAttempts).flatten) := by
    intro datasets
    induction datasets with
    | nil => intro acc; simp
    | cons ds rest ih =>
      intro acc
      simp only [List.foldl_cons, List.map_cons, List.flatten_cons]
      by_cases hf : ds.fileExists = true
      · rw [if_pos hf, bench_inner_general useCpp env ds.name ds.stats
          RunScripts.allAlgos acc, ih]
        simp [RunScripts.dsRows, RunScripts.dsAttempts, hf]
      · rw [if_neg hf, ih]
        simp [RunScripts.dsRows, RunScripts.dsAttempts, hf]
  intro datasets
  unfold RunScripts.run_all_benchmarks
  rw [hgen datasets ([], [])]
  simp

/- Claim theorems. -/

/-- C4: given an algorithm short name and dataset base name, the Output
Reconciler searches the fixed ordered candidate list (canonical path in
the output directory, then the shortname_centrality.csv name in the tool
directory, then the shortname_dataset.csv name in the tool directory) and
selects the first candidate that exists on disk, returning none when no
candidate exists; except that when the binary was freshly invoked (ran =
true) and the tool-directory file exists, that file is preferred.  The
source selection selectSrcCsv coincides with this rule (spec_select), and
returns none when no candidate exists. -/
theorem C4_theorem :
    (∀ (ex : String → Bool) (ran : Bool) (od cd sh bs : String),
      Centrality.selectSrcCsv ex ran od cd sh bs =
        Centrality.spec_select ex ran od cd sh bs)
  ∧ (∀ (ex : String → Bool) (ran : Bool) (od cd sh bs : String),
      (∀ c ∈ Centrality.csvCandidates od cd sh bs, ex c = false) →
      Centrality.selectSrcCsv ex ran od cd sh bs = none) := by
  refine ⟨selectSrcCsv_eq_spec, ?_⟩
  intro ex ran od cd sh bs h
  rw [selectSrcCsv_eq_spec]
  unfold Centrality.spec_select
  have hfind : (Centrality.csvCandidates od cd sh bs).find? ex = none :=
    List.find?_eq_none.mpr (fun x hx => by simp [h x hx])
  have htool : ex (Centrality.pjoin cd (sh ++ "_centrality.csv")) = false :=
    h _ (by simp [Centrality.csvCandidates])
  simp [htool, hfind]

/-- Witness for C4 at a concrete input: with no candidate on disk the
selection returns none. -/
theorem C4_witness :
    (∀ c ∈ Centrality.csvCandidates "output" "CPP" "degree" "sparse_network",
      (fun _ => false) c = false)
  ∧ Centrality.selectSrcCsv (fun _ => false) true
      "output" "CPP" "degree" "sparse_network" = none :=
  ⟨fun _ _ => rfl,
   C4_theorem.2 (fun _ => false) true "output" "CPP" "degree" "sparse_network"
     (fun _ _ => rfl)⟩

/-- C6: for every graph and requested metric, if the reference centrality
computation raises (or fails to converge, which surfaces as a raise), the
Fallback Executor does not propagate the failure: it substitutes the
degree-centrality proxy computed on the same graph, and it returns some
node-to-value mapping in every case. -/
theorem C6_theorem :
    (∀ (G M : Type) (degreeFn : G → M) (g : G) (v : M),
      Centrality.run_python_vals degreeFn (fun _ => Except.ok v) g = v)
  ∧ (∀ (G M : Type) (degreeFn : G → M) (g : G) (e : String),
      Centrality.run_python_vals degreeFn (fun _ => Except.error e) g = degreeFn g)
  ∧ (∀ (G M : Type) (degreeFn : G → M) (primary : G → Except String M) (g : G),
      ∃ m : M, Centrality.run_python_vals degreeFn primary g = m) :=
  ⟨fun _ _ _ _ _ => rfl, fun _ _ _ _ _ => rfl,
   fun _ _ degreeFn primary g => ⟨Centrality.run_python_vals degreeFn primary g, rfl⟩⟩

/-- C10: read_centrality_csv is total (every exception path is handled and
returns a dict): a none or missing path yields the empty mapping, the first
line of an existing file is skipped as the header (an empty file raises
StopIteration, caught with the still-empty dict), every line with fewer
than two comma-separated fields or with an unparseable node or value field
is silently skipped, and every other line contributes exactly one entry
through dict assignment.  Formally the source translation equals the
claim-shaped total function read_csv_spec. -/
theorem C10_theorem (α : Type) (pyInt : List Char → Option Int)
    (pyFloat : List Char → Option α) (fs : String → Option (List (List Char)))
    (path : Option String) :
    Centrality.read_centrality_csv pyInt pyFloat fs path =
      Centrality.read_csv_spec pyInt pyFloat fs path :=
  read_csv_eq_spec pyInt pyFloat fs path

/-- C1 counterexample: the Result Aggregator record operation of the source
is a list append, so a second record call with an already-present (dataset,
algorithm) key appends a duplicate row instead of overwriting: after two
record calls for the (sparse, degree) key, the table holds two rows for
that key, not one row reflecting the second call. -/
theorem C1_counterexample :
    RunScripts.countKey
      (RunScripts.record
        (RunScripts.record []
          ⟨"sparse", "degree", 10, 20, -1, "Failed (exit code 1)", "C++"⟩)
        ⟨"sparse", "degree", 10, 20, -1, "Success", "Python"⟩)
      "sparse" "degree" = 2 := by decide

/-- C1 (amended): record is append-only, so a repeated key is appended, not
overwritten; the finalized table nevertheless holds at most one row per
(dataset, algorithm) key because the benchmark loop processes each pair at
most once: for any dataset list with pairwise distinct names and every
environment, every key occurs in at most one row (a pair can also yield
zero rows, when its C++ run fails and no Python fallback is configured). -/
theorem C1_theorem (useCpp : Bool) (datasets : List RunScripts.DsEntry)
    (env : String → String → RunScripts.PairWorld)
    (hnd : (datasets.map RunScripts.DsEntry.name).Nodup) (d a : String) :
    RunScripts.countKey (RunScripts.run_all_benchmarks useCpp datasets env).1 d a ≤ 1 := by
  rw [run_all_benchmarks_eq useCpp env datasets]
  exact countKey_datasets_le useCpp env d a datasets hnd

/-- Witness for C1 (amended) at a concrete run. -/
theorem C1_witness :
    (([⟨"sparse", true, (10, 20)⟩] : List RunScripts.DsEntry).map
      RunScripts.DsEntry.name).Nodup
  ∧ RunScripts.countKey
      (RunScripts.run_all_benchmarks true [⟨"sparse", true, (10, 20)⟩]
        (fun _ _ => ⟨false, RunScripts.SpawnOutcome.spawnNotFound,
          RunScripts.PyAlgoOutcome.raises "ImportError"⟩)).1
      "sparse" "degree" ≤ 1 :=
  ⟨by decide,
   C1_theorem true [⟨"sparse", true, (10, 20)⟩]
     (fun _ _ => ⟨false, RunScripts.SpawnOutcome.spawnNotFound,
       RunScripts.PyAlgoOutcome.raises "ImportError"⟩)
     (by decide) "sparse" "degree"⟩

/-- C2 (amended): run_cpp_algorithm never raises; every child failure mode
(missing binary, non-zero exit, timeout, other spawn error) is encoded in
the returned status, and the run_all_benchmarks loop attempts every
configured (dataset, algorithm) pair whatever the outcomes are.  The
companion counterexample shows that the separate benchmark loop of
run_centrality_benchmark.py does not share this property. -/
theorem C2_theorem :
    (∀ (T : ℚ) (o : RunScripts.SpawnOutcome),
      RunScripts.run_cpp_algorithm T o = RunScripts.spec_run_cpp T o)
  ∧ (∀ (useCpp : Bool) (datasets : List RunScripts.DsEntry)
      (env : String → String → RunScripts.PairWorld),
      (RunScripts.run_all_benchmarks useCpp datasets env).2 =
        (datasets.map RunScripts.dsAttempts).flatten) := by
  constructor
  · intro T o
    cases o with
    | completed rc t =>
      by_cases h : rc = 0 <;>
        simp [RunScripts.run_cpp_algorithm, RunScripts.spec_run_cpp,
          RunScripts.subprocessRunTimed, h]
    | timedOut => rfl
    | spawnNotFound => rfl
    | spawnError m => rfl
  · intro useCpp datasets env
    rw [run_all_benchmarks_eq useCpp env datasets]

/-- C2 counterexample: in the benchmark loop of
run_centrality_benchmark.py the subprocess call has no exception handler,
so a spawn failure (missing binary) on the first (dataset, algorithm) pair
terminates the loop: the second pair is never attempted and the run ends
in an uncaught FileNotFoundError. -/
theorem C2_counterexample :
    (AnalysisBench.cbRun AnalysisBench.cbBadEnv ["sparse"]
      ["degree", "closeness"]).1 = [("sparse", "degree")]
  ∧ ("sparse", "closeness") ∉
      (AnalysisBench.cbRun AnalysisBench.cbBadEnv ["sparse"]
        ["degree", "closeness"]).1
  ∧ (AnalysisBench.cbRun AnalysisBench.cbBadEnv ["sparse"]
      ["degree", "closeness"]).2 = Except.error "FileNotFoundError" :=
  ⟨rfl, by decide, rfl⟩

/-- C3 counterexample: the Facebook runner, an external-algorithm runner
with a configured 300-second timeout, reacts to a timeout by returning a
result dict with status timeout and runtime None: the elapsed value is not
the timeout value 300 (and not any number at all), refuting the claim that
every runner returns elapsed exactly equal to the timeout. -/
theorem C3_counterexample :
    Facebook.run_algorithm "degree_centrality" true Facebook.FbOutcome.timedOut
      = some ⟨"degree_centrality", none, none, 0, "timeout"⟩
  ∧ (none : Option ℚ) ≠ some 300 :=
  ⟨rfl, by simp⟩

/-- C3 (amended): only run_cpp_algorithm returns status Timeout with
elapsed exactly the timeout T; run_algorithm of run_facebook_analysis
returns status timeout with runtime None; and run_python_algorithm never
terminates the computation early: it waits for completion and reports the
observed elapsed time, with status Timeout when that time exceeds T. -/
theorem C3_theorem :
    (∀ T : ℚ, RunScripts.run_cpp_algorithm T RunScripts.SpawnOutcome.timedOut
      = (T, "Timeout"))
  ∧ (∀ name : String,
      Facebook.run_algorithm name true Facebook.FbOutcome.timedOut
        = some ⟨name, none, none, 0, "timeout"⟩)
  ∧ (∀ (T t : ℚ) (vals : List (Int × ℚ)), T < t →
      RunScripts.run_python_algorithm T (RunScripts.PyAlgoOutcome.returns vals t)
        = (none, t, "Timeout")) := by
  refine ⟨fun T => rfl, fun name => rfl, ?_⟩
  intro T t vals h
  simp [RunScripts.run_python_algorithm, h]

/-- Witness for C3 (amended): a computation observed at 2 seconds against a
1-second budget is reported as Timeout with the observed elapsed time 2. -/
theorem C3_witness :
    (1 : ℚ) < 2
  ∧ RunScripts.run_python_algorithm (1 : ℚ)
      (RunScripts.PyAlgoOutcome.returns ([] : List (Int × ℚ)) 2)
      = (none, 2, "Timeout") :=
  ⟨by norm_num, C3_theorem.2.2 1 2 [] (by norm_num)⟩

/-- C5: the move-to-canonical-path step of the Output Reconciler is
idempotent: when the located source and the canonical destination have the
same absolute path no rename is performed and no error occurs; when the
rename fails the exception is caught, the state is unchanged and the
pipeline continues (the step returns a result instead of raising); and
running the whole reconcile pass twice leaves the filesystem of the first
pass unchanged, so reconciling with the canonical path already populated
is a no-op. -/
theorem C5_theorem :
    (∀ (A : String → String) (rf : String → String → Bool) (fs : String → Bool)
       (s dst : String), A s = A dst →
       Centrality.moveToCanonical A rf fs (some s) dst = ⟨fs, false, false⟩)
  ∧ (∀ (A : String → String) (rf : String → String → Bool) (fs : String → Bool)
       (s dst : String), ¬A s = A dst → rf s dst = true →
       Centrality.moveToCanonical A rf fs (some s) dst = ⟨fs, true, true⟩)
  ∧ (∀ (A : String → String) (rf : String → String → Bool) (ran : Bool)
       (od cd sh bs : String) (fs : String → Bool),
       (Centrality.reconcile A rf ran od cd sh bs
          (Centrality.reconcile A rf ran od cd sh bs fs).fs).fs
        = (Centrality.reconcile A rf ran od cd sh bs fs).fs) :=
  ⟨moveToCanonical_same, moveToCanonical_failed, reconcile_idem_fs⟩

/-- Witness for C5 at concrete inputs: a same-path move is a no-op, and a
failing rename is caught with the filesystem unchanged. -/
theorem C5_witness :
    (id "x" = id "x")
  ∧ Centrality.moveToCanonical id (fun _ _ => true) (fun _ => false)
      (some "x") "x" = ⟨(fun _ => false), false, false⟩
  ∧ ¬id "a" = id "b"
  ∧ Centrality.moveToCanonical id (fun _ _ => true) (fun _ => false)
      (some "a") "b" = ⟨(fun _ => false), true, true⟩ :=
  ⟨rfl,
   C5_theorem.1 id (fun _ _ => true) (fun _ => false) "x" "x" rfl,
   by decide,
   C5_theorem.2.1 id (fun _ _ => true) (fun _ => false) "a" "b" (by decide) rfl⟩

/-- C7: every centrality CSV written by the Fallback Executor writer is the
exact header line node,value followed by exactly one serialised row per
node of the mapping (a permutation of its entries), and the rows appear in
strictly ascending order of the integer node identifier. -/
theorem C7_theorem (α : Type) (reprI : Int → List Char) (reprV : α → List Char)
    (vals : List (Int × α)) (hnd : (vals.map Prod.fst).Nodup) :
    ∃ rows : List (Int × α),
      Centrality.write_centrality_lines reprI reprV vals =
        "node,value".toList :: rows.map (Centrality.csvRow reprI reprV)
      ∧ rows.Perm vals
      ∧ (rows.map Prod.fst).Pairwise (fun x y => x < y) :=
  ⟨pysortByKey vals, rfl, pysortByKey_perm vals, pysortByKey_strict vals hnd⟩

/-- Witness for C7 on a concrete two-node mapping. -/
theorem C7_witness :
    (([(2, 5), (0, 3)] : List (Int × Nat)).map Prod.fst).Nodup
  ∧ ∃ rows : List (Int × Nat),
      Centrality.write_centrality_lines intToChars natToChars [(2, 5), (0, 3)] =
        "node,value".toList :: rows.map (Centrality.csvRow intToChars natToChars)
      ∧ rows.Perm [(2, 5), (0, 3)]
      ∧ (rows.map Prod.fst).Pairwise (fun x y => x < y) :=
  ⟨by decide, C7_theorem Nat intToChars natToChars [(2, 5), (0, 3)] (by decide)⟩

/-- C8: when the configured executable path does not exist or is not
executable, no child process is spawned for that pair and the Python
fallback computation is invoked (when one is configured): the event trace
of the pair is exactly the fallback event.  At the runner level, a spawn
hitting a missing binary returns the Binary-not-found status (the status
the specification calls BinaryMissing) immediately, with no child process
created. -/
theorem C8_theorem :
    (∀ (dsName : String) (stats : Nat × Nat) (algo : RunScripts.AlgoInfo)
       (w : RunScripts.PairWorld),
       algo.hasCpp = true → algo.hasPython = true → w.cppPresent = false →
       (RunScripts.should_skip_algorithm algo.name stats.2).1 = false →
       (RunScripts.processPair true dsName stats algo w).2 = [RunScripts.Ev.runPython])
  ∧ (∀ T : ℚ,
       RunScripts.run_cpp_algorithm T RunScripts.SpawnOutcome.spawnNotFound
         = (0, "Binary not found")
       ∧ RunScripts.childSpawned RunScripts.SpawnOutcome.spawnNotFound = false) := by
  constructor
  · intro dsName stats algo w hcpp hpy hpres hsk
    rcases hpr : RunScripts.run_python_algorithm RunScripts.TIMEOUT w.pyOutcome
      with ⟨vo, rt0, st0⟩
    simp [RunScripts.processPair, hsk, hpres, hpy, hpr]
  · intro T
    exact ⟨rfl, rfl⟩

/-- Witness for C8 on a concrete pair with a missing binary. -/
theorem C8_witness :
    ((⟨"degree", true, true⟩ : RunScripts.AlgoInfo).hasCpp = true)
  ∧ (RunScripts.processPair true "sparse" (10, 20)
      ⟨"degree", true, true⟩
      ⟨false, RunScripts.SpawnOutcome.spawnNotFound,
        RunScripts.PyAlgoOutcome.raises "ImportError"⟩).2
      = [RunScripts.Ev.runPython] :=
  ⟨rfl,
   C8_theorem.1 "sparse" (10, 20) ⟨"degree", true, true⟩
     ⟨false, RunScripts.SpawnOutcome.spawnNotFound,
       RunScripts.PyAlgoOutcome.raises "ImportError"⟩
     rfl rfl rfl (by decide)⟩

/-- C9: a centrality CSV written by the Fallback Executor writer, re-read
with read_centrality_csv, reproduces the original mapping of node id to
value exactly (so in particular within any tolerance, including the 1e-9
of the claim): the key set and every value agree.  The hypotheses state
what Python guarantees for its builtins on the written fields: str and
int, and repr and float, round-trip, and the printed fields contain no
comma and no whitespace. -/
theorem C9_theorem (α : Type) (reprI : Int → List Char) (reprV : α → List Char)
    (pyInt : List Char → Option Int) (pyFloat : List Char → Option α)
    (vals : List (Int × α)) (fs : String → Option (List (List Char)))
    (path : String)
    (hnd : (vals.map Prod.fst).Nodup)
    (hI : ∀ p ∈ vals, pyInt (reprI p.1) = some p.1)
    (hV : ∀ p ∈ vals, pyFloat (reprV p.2) = some p.2)
    (hIc : ∀ p ∈ vals, ∀ c ∈ reprI p.1, c ≠ ',' ∧ pyIsSpace c = false)
    (hVc : ∀ p ∈ vals, ∀ c ∈ reprV p.2, c ≠ ',' ∧ pyIsSpace c = false)
    (hfs : fs path = some (Centrality.write_centrality_lines reprI reprV vals)) :
    ∀ k, dlookup k (Centrality.read_centrality_csv pyInt pyFloat fs (some path))
      = dlookup k vals := by
  intro k
  rw [read_csv_eq_spec]
  have h1 : Centrality.read_csv_spec pyInt pyFloat fs (some path)
      = (((pysortByKey vals).map (Centrality.csvRow reprI reprV)).filterMap
          (Centrality.parse_line_spec pyInt pyFloat)).foldl
          (fun acc nv => dinsert nv.1 nv.2 acc) [] := by
    simp only [Centrality.read_csv_spec, hfs, Centrality.write_centrality_lines]
  rw [h1]
  have hparse : ∀ p ∈ pysortByKey vals,
      Centrality.parse_line_spec pyInt pyFloat (Centrality.csvRow reprI reprV p)
        = some p := by
    intro p hp
    have hpv : p ∈ vals := (pysortByKey_perm vals).mem_iff.mp hp
    have hIc2 := hIc p hpv
    have hVc2 := hVc p hpv
    have hns : ∀ c ∈ Centrality.csvRow reprI reprV p, pyIsSpace c = false := by
      intro c hc
      rcases List.mem_append.mp hc with hc | hc
      · exact (hIc2 c hc).2
      · rcases List.mem_cons.mp hc with rfl | hc
        · decide
        · exact (hVc2 c hc).2
    unfold Centrality.parse_line_spec
    rw [pstrip_eq_self hns]
    rw [show Centrality.csvRow reprI reprV p = reprI p.1 ++ ',' :: reprV p.2 from rfl]
    rw [splitComma_append (fun c hc => (hIc2 c hc).1)]
    rw [splitComma_no_comma (fun c hc => (hVc2 c hc).1)]
    simp [hI p hpv, hV p hpv]
  rw [filterMap_map_eq_self _ _ _ hparse]
  have hndS : ((pysortByKey vals).map Prod.fst).Nodup :=
    (((pysortByKey_perm vals).map Prod.fst).nodup_iff).mpr hnd
  rw [foldl_dinsert_fresh _ [] hndS (by intro k2 _; simp)]
  simp only [List.nil_append]
  exact dlookup_perm (pysortByKey_perm vals) hndS k

/-- Witness for C9: a concrete two-entry mapping written with the concrete
decimal printers and re-read with the concrete decimal parsers gives back
the value of node 2. -/
theorem C9_witness :
    dlookup 2 (Centrality.read_centrality_csv parseIntChars parseNatChars
      (fun s => if s = "out.csv"
        then some (Centrality.write_centrality_lines intToChars natToChars
          [(0, 5), (2, 7)])
        else none)
      (some "out.csv")) = some 7 := by
  have h := C9_theorem Nat intToChars natToChars parseIntChars parseNatChars
    [(0, 5), (2, 7)]
    (fun s => if s = "out.csv"
      then some (Centrality.write_centrality_lines intToChars natToChars
        [(0, 5), (2, 7)])
      else none)
    "out.csv" (by decide) (by decide) (by decide) (by decide) (by decide)
    (by simp)
  rw [h 2]
  decide
